import Mathlib

/-!
Verification of the ai-dial-ums-ui-agent orchestration core: a shallow
embedding of the message model (src/agent/models/message.py), the streaming
delta assembler, the tool invoker and the orchestration loop
(src/agent/clients/dial_client.py), and the conversation manager entry point
(src/agent/conversation_manager.py), with theorems settling the stated
properties of each component.
-/

namespace UmsAgent

/-- Python truthiness of an optional string: `None` and the empty string are
falsy, every other string is truthy. -/
def truthy : Option String → Bool
  | none => false
  | some s => s != ""

/-- Role enumeration from message.py (system / user / assistant / tool). -/
inductive Role where
  | system
  | user
  | assistant
  | tool
deriving DecidableEq, Repr

/-- `str(self.role.value)` of the StrEnum member. -/
def Role.toStr : Role → String
  | .system => "system"
  | .user => "user"
  | .assistant => "assistant"
  | .tool => "tool"

/-- A tool-call dict as built by dial_client.py: both the complete calls
extracted from a blocking response and the accumulators produced by
`_collect_tool_calls` have the shape
`\x7bid, type, function: \x7bname, arguments\x7d\x7d`, where `id`, `type` and
`function.name` may be `None` in the streamed case and `arguments` is a
string. -/
structure ToolCall where
  id : Option String := none
  type : Option String := none
  fname : Option String := none
  farguments : String := ""
deriving DecidableEq, Repr

/-- The Message pydantic model from message.py: a role plus optional content,
tool_call_id, name and tool_calls fields, each defaulting to `None`. -/
structure Message where
  role : Role
  content : Option String := none
  tool_call_id : Option String := none
  name : Option String := none
  tool_calls : Option (List ToolCall) := none
deriving DecidableEq, Repr

/-- A value stored in the wire dict produced by `Message.to_dict`. -/
inductive WireValue where
  | str (s : String)
  | calls (l : List ToolCall)
deriving DecidableEq, Repr

/-- Python truthiness of the optional `tool_calls` list: `None` and the empty
list are falsy. -/
def truthyCalls : Option (List ToolCall) → Bool
  | none => false
  | some l => !l.isEmpty

/-- `Message.to_dict` from message.py: the wire dict always carries the role,
and each of content, name, tool_call_id, tool_calls is added only when the
field is truthy (`if self.content: ...` and so on), in that order. The dict is
modelled as an association list in insertion order; an absent key models an
omitted field. -/
def Message.to_dict (m : Message) : List (String × WireValue) :=
  [("role", WireValue.str m.role.toStr)]
    ++ (if truthy m.content then [("content", WireValue.str (m.content.getD ""))] else [])
    ++ (if truthy m.name then [("name", WireValue.str (m.name.getD ""))] else [])
    ++ (if truthy m.tool_call_id then [("tool_call_id", WireValue.str (m.tool_call_id.getD ""))] else [])
    ++ (if truthyCalls m.tool_calls then [("tool_calls", WireValue.calls (m.tool_calls.getD []))] else [])

/-- The set of keys present in a wire dict. -/
def hasKey (d : List (String × WireValue)) (k : String) : Prop :=
  k ∈ d.map Prod.fst

instance (d : List (String × WireValue)) (k : String) : Decidable (hasKey d k) := by
  unfold hasKey; infer_instance

theorem truthy_iff (o : Option String) : truthy o = true ↔ ∃ s, o = some s ∧ s ≠ "" := by
  cases o with
  | none => simp [truthy]
  | some s => simp [truthy]

theorem truthyCalls_iff (o : Option (List ToolCall)) :
    truthyCalls o = true ↔ ∃ l, o = some l ∧ l ≠ [] := by
  cases o with
  | none => simp [truthyCalls]
  | some l => simp [truthyCalls, List.isEmpty_iff]

/-- Claim C9: the wire serialization `to_dict` of every Message contains the
role, and contains each of the keys content, name, tool_call_id and
tool_calls exactly when the corresponding field is set and non-empty:
omission, not a null placeholder, signals absence. -/
theorem to_dict_key_presence (m : Message) :
    hasKey m.to_dict "role"
      ∧ (hasKey m.to_dict "content" ↔ ∃ s, m.content = some s ∧ s ≠ "")
      ∧ (hasKey m.to_dict "name" ↔ ∃ s, m.name = some s ∧ s ≠ "")
      ∧ (hasKey m.to_dict "tool_call_id" ↔ ∃ s, m.tool_call_id = some s ∧ s ≠ "")
      ∧ (hasKey m.to_dict "tool_calls" ↔ ∃ l, m.tool_calls = some l ∧ l ≠ []) := by
  rw [← truthy_iff, ← truthy_iff, ← truthy_iff, ← truthyCalls_iff]
  by_cases h1 : truthy m.content = true <;>
  by_cases h2 : truthy m.name = true <;>
  by_cases h3 : truthy m.tool_call_id = true <;>
  by_cases h4 : truthyCalls m.tool_calls = true <;>
    simp [hasKey, Message.to_dict, h1, h2, h3, h4]

/-! ## Delta assembler (`DialClient._collect_tool_calls`) -/

/-- The `function` part of a streamed tool-call delta
(ChoiceDeltaToolCallFunction): optional name and optional arguments chunk. -/
structure FunctionDelta where
  name : Option String := none
  arguments : Option String := none
deriving DecidableEq, Repr

/-- A partial tool-call fragment from one streaming chunk
(ChoiceDeltaToolCall): an index identifying the in-flight call, plus optional
id, type and function parts. `function = none` models a `None` attribute,
which is falsy in the `if delta.function and ...` guards. -/
structure ToolCallDelta where
  index : Nat
  id : Option String := none
  type : Option String := none
  function : Option FunctionDelta := none
deriving DecidableEq, Repr

/-- The defaultdict factory value in `_collect_tool_calls`:
`\x7b"id": None, "function": \x7b"arguments": "", "name": None\x7d, "type": None\x7d`. -/
def emptyAcc : ToolCall := {}

/-- Whether processing this delta accesses `tool_dict[idx]` at all: each of
the four `if` statements touches the defaultdict only when its guard is
truthy, so a delta with no truthy field creates no accumulator. -/
def touches (d : ToolCallDelta) : Bool :=
  truthy d.id
    || (match d.function with
        | some f => truthy f.name || truthy f.arguments
        | none => false)
    || truthy d.type

/-- `if delta.id: tool_dict[idx]["id"] = delta.id`. -/
def applyId (d : ToolCallDelta) (acc : ToolCall) : ToolCall :=
  if truthy d.id then { acc with id := d.id } else acc

/-- The two `if delta.function and ...` statements: set the name when truthy,
then concatenate a truthy arguments chunk onto the accumulated string. -/
def applyFn (d : ToolCallDelta) (acc : ToolCall) : ToolCall :=
  match d.function with
  | none => acc
  | some f =>
    let b := if truthy f.name then { acc with fname := f.name } else acc
    if truthy f.arguments then
      { b with farguments := b.farguments ++ f.arguments.getD "" }
    else b

/-- `if delta.type: tool_dict[idx]["type"] = delta.type`. -/
def applyType (d : ToolCallDelta) (acc : ToolCall) : ToolCall :=
  if truthy d.type then { acc with type := d.type } else acc

/-- The combined effect of one loop iteration on the accumulator for
`delta.index`. -/
def updateAcc (acc : ToolCall) (d : ToolCallDelta) : ToolCall :=
  applyType d (applyFn d (applyId d acc))

/-- Update the entry for key `i` in an insertion-ordered association list,
creating it at the end from the defaultdict factory value when absent —
this models Python dict insertion-order semantics. -/
def insertUpdate : List (Nat × ToolCall) → Nat → (ToolCall → ToolCall) → List (Nat × ToolCall)
  | [], i, f => [(i, f emptyAcc)]
  | (k, a) :: rest, i, f =>
    if k = i then (k, f a) :: rest else (k, a) :: insertUpdate rest i f

/-- Key lookup in the insertion-ordered association list. -/
def lookupAcc : List (Nat × ToolCall) → Nat → Option ToolCall
  | [], _ => none
  | (k, a) :: rest, i => if k = i then some a else lookupAcc rest i

/-- One iteration of the `for delta in tool_deltas` loop of
`_collect_tool_calls`. -/
def collectStep (m : List (Nat × ToolCall)) (d : ToolCallDelta) : List (Nat × ToolCall) :=
  if touches d then insertUpdate m d.index (fun acc => updateAcc acc d) else m

/-- The final state of `tool_dict` after the loop, as (index, accumulator)
pairs in dict insertion order. -/
def collectEntries (ds : List ToolCallDelta) : List (Nat × ToolCall) :=
  ds.foldl collectStep []

/-- `_collect_tool_calls`: `list(tool_dict.values())`. -/
def collect_tool_calls (ds : List ToolCallDelta) : List ToolCall :=
  (collectEntries ds).map Prod.snd

/-- Keys after inserting `i`: unchanged when present, appended when new. -/
def insKey (ks : List Nat) (i : Nat) : List Nat :=
  if i ∈ ks then ks else ks ++ [i]

/-- The distinct indexes of effective fragments, in order of first
appearance in the stream. -/
def firstSeen (ds : List ToolCallDelta) : List Nat :=
  ((ds.filter (fun d => touches d)).map (fun d => d.index)).foldl insKey []

/-- The arguments chunk a delta contributes, when its guard is truthy. -/
def argChunk (d : ToolCallDelta) : Option String :=
  match d.function with
  | some f => if truthy f.arguments then f.arguments else none
  | none => none

/-- Concatenation of a list of strings in order. -/
def concatChunks : List String → String
  | [] => ""
  | c :: cs => c ++ concatChunks cs

/-- The arguments chunks carried by the fragments with index `i`, in arrival
order. -/
def chunksFor (ds : List ToolCallDelta) (i : Nat) : List String :=
  ds.filterMap (fun d => if d.index = i then argChunk d else none)

/-- The accumulated arguments string for index `i`, empty when no
accumulator exists. -/
def argsOf (m : List (Nat × ToolCall)) (i : Nat) : String :=
  ((lookupAcc m i).map (fun a => a.farguments)).getD ""

theorem insKey_cons (k : Nat) (ks : List Nat) (i : Nat) (h : i ≠ k) :
    insKey (k :: ks) i = k :: insKey ks i := by
  by_cases h2 : i ∈ ks <;> simp [insKey, List.mem_cons, h, h2]

theorem insertUpdate_keys (m : List (Nat × ToolCall)) (i : Nat) (f : ToolCall → ToolCall) :
    (insertUpdate m i f).map Prod.fst = insKey (m.map Prod.fst) i := by
  induction m with
  | nil => simp [insertUpdate, insKey]
  | cons p rest ih =>
    obtain ⟨k, a⟩ := p
    by_cases h : k = i
    · subst h
      simp [insertUpdate, insKey]
    · rw [show insertUpdate ((k, a) :: rest) i f = (k, a) :: insertUpdate rest i f from by
        simp [insertUpdate, h]]
      simp only [List.map_cons, ih]
      rw [insKey_cons k (rest.map Prod.fst) i (fun hh => h hh.symm)]

theorem collectStep_keys (m : List (Nat × ToolCall)) (d : ToolCallDelta) :
    (collectStep m d).map Prod.fst =
      if touches d then insKey (m.map Prod.fst) d.index else m.map Prod.fst := by
  unfold collectStep
  split <;> simp_all [insertUpdate_keys]

theorem foldl_collectStep_keys (ds : List ToolCallDelta) :
    ∀ m : List (Nat × ToolCall),
      ((ds.foldl collectStep m).map Prod.fst) =
        ((ds.filter (fun d => touches d)).map (fun d => d.index)).foldl insKey
          (m.map Prod.fst) := by
  induction ds with
  | nil => intro m; simp
  | cons d rest ih =>
    intro m
    simp only [List.foldl_cons, List.filter_cons]
    rw [ih, collectStep_keys]
    by_cases h : touches d = true <;> simp [h]

/-- The counterexample input for claim C6: a fragment for index 1 arriving
before the fragment for index 0. -/
def fragIdx1 : ToolCallDelta :=
  { index := 1, id := some "b", type := some "function",
    function := some { name := some "g", arguments := some "\x7b\x7d" } }

/-- The second counterexample fragment, for index 0. -/
def fragIdx0 : ToolCallDelta :=
  { index := 0, id := some "a", type := some "function",
    function := some { name := some "f", arguments := some "\x7b\x7d" } }

/-- Counterexample to claim C6: when the fragment for index 1 arrives before
the fragment for index 0, `_collect_tool_calls` emits the accumulators in
dict insertion order [1, 0], which is not ascending index order. -/
theorem collect_emission_not_ascending_cex :
    (collectEntries [fragIdx1, fragIdx0]).map Prod.fst = [1, 0]
      ∧ ¬ List.Sorted (· ≤ ·) ((collectEntries [fragIdx1, fragIdx0]).map Prod.fst) := by
  constructor
  · rfl
  · intro h
    rw [show (collectEntries [fragIdx1, fragIdx0]).map Prod.fst = [1, 0] from rfl] at h
    simp [List.sorted_cons] at h

/-- Claim C6 (amended): for every finite fragment sequence, the Delta
Assembler emits the completed accumulators in order of first effective
appearance of their `index` values (Python dict insertion order), not in
ascending `index` order. -/
theorem collect_emission_first_appearance_order (ds : List ToolCallDelta) :
    (collectEntries ds).map Prod.fst = firstSeen ds := by
  simpa [collectEntries, firstSeen] using foldl_collectStep_keys ds []

theorem applyId_farguments (d : ToolCallDelta) (acc : ToolCall) :
    (applyId d acc).farguments = acc.farguments := by
  unfold applyId; split <;> rfl

theorem applyType_farguments (d : ToolCallDelta) (acc : ToolCall) :
    (applyType d acc).farguments = acc.farguments := by
  unfold applyType; split <;> rfl

theorem applyFn_farguments (d : ToolCallDelta) (acc : ToolCall) :
    (applyFn d acc).farguments = acc.farguments ++ (argChunk d).getD "" := by
  unfold applyFn argChunk
  cases d.function with
  | none => simp
  | some f =>
    by_cases hn : truthy f.name = true <;> by_cases ha : truthy f.arguments = true <;>
      simp [hn, ha]

theorem updateAcc_farguments (acc : ToolCall) (d : ToolCallDelta) :
    (updateAcc acc d).farguments = acc.farguments ++ (argChunk d).getD "" := by
  unfold updateAcc
  rw [applyType_farguments, applyFn_farguments, applyId_farguments]

theorem argChunk_of_not_touches (d : ToolCallDelta) (h : touches d = false) :
    argChunk d = none := by
  obtain ⟨idx, id, ty, fn⟩ := d
  cases fn with
  | none => rfl
  | some f =>
    simp only [touches, Bool.or_eq_false_iff] at h
    simp [argChunk, h.1.2.2]

theorem lookupAcc_insertUpdate (m : List (Nat × ToolCall)) (i j : Nat)
    (f : ToolCall → ToolCall) :
    lookupAcc (insertUpdate m i f) j =
      if j = i then some (f ((lookupAcc m i).getD emptyAcc)) else lookupAcc m j := by
  induction m with
  | nil =>
    by_cases h : j = i
    · subst h; simp [insertUpdate, lookupAcc]
    · simp [insertUpdate, lookupAcc, h, Ne.symm h]
  | cons p rest ih =>
    obtain ⟨k, a⟩ := p
    by_cases hk : k = i
    · subst hk
      by_cases hj : j = k
      · subst hj; simp [insertUpdate, lookupAcc]
      · simp [insertUpdate, lookupAcc, hj, Ne.symm hj]
    · rw [show insertUpdate ((k, a) :: rest) i f = (k, a) :: insertUpdate rest i f from by
        simp [insertUpdate, hk]]
      by_cases hj : k = j
      · subst hj
        simp [lookupAcc, hk]
      · simp [lookupAcc, hj, ih, hk]

theorem argsOf_collectStep (m : List (Nat × ToolCall)) (d : ToolCallDelta) (i : Nat) :
    argsOf (collectStep m d) i =
      argsOf m i ++ (if d.index = i then (argChunk d).getD "" else "") := by
  unfold collectStep
  by_cases ht : touches d = true
  · simp only [ht, if_true]
    unfold argsOf
    rw [lookupAcc_insertUpdate]
    by_cases hi : i = d.index
    · subst hi
      simp only [if_pos rfl]
      cases h : lookupAcc m d.index <;>
        simp [h, emptyAcc, updateAcc_farguments, String.empty_append]
    · have hi2 : ¬ d.index = i := fun hh => hi hh.symm
      rw [if_neg hi, if_neg hi2, String.append_empty]
  · simp only [Bool.not_eq_true] at ht
    rw [if_neg (by simp [ht]), argChunk_of_not_touches d ht]
    by_cases hi : d.index = i <;> simp [hi]

theorem argsOf_foldl (ds : List ToolCallDelta) :
    ∀ (m : List (Nat × ToolCall)) (i : Nat),
      argsOf (ds.foldl collectStep m) i = argsOf m i ++ concatChunks (chunksFor ds i) := by
  induction ds with
  | nil => intro m i; simp [chunksFor, concatChunks]
  | cons d rest ih =>
    intro m i
    simp only [List.foldl_cons]
    rw [ih, argsOf_collectStep]
    by_cases hd : d.index = i
    · cases hc : argChunk d with
      | none => simp [chunksFor, List.filterMap_cons, hd, hc]
      | some c =>
        simp [chunksFor, List.filterMap_cons, hd, hc, concatChunks, String.append_assoc]
    · simp [chunksFor, List.filterMap_cons, hd]

/-- Claim C7: for every fragment sequence and index `i`, the assembled
`arguments` string for `i` equals the concatenation, in arrival order, of
exactly the arguments chunks carried by fragments with index `i`; fragments
for different indexes are kept in separate accumulators, so any interleaving
with other indexes reassembles the same string. -/
theorem collect_arguments_concat (ds : List ToolCallDelta) (i : Nat) :
    argsOf (collectEntries ds) i = concatChunks (chunksFor ds i) := by
  have h := argsOf_foldl ds [] i
  rw [collectEntries]
  rw [h]
  simp [argsOf, lookupAcc]

/-! ## Tool invoker (`DialClient._call_tools`) -/

/-- The external collaborators of `_call_tools`, abstracted: `parse` is
`json.loads` on the arguments string (error = the raised JSONDecodeError
message), `resolve` is `self.tool_name_client_map.get` (keys are strings, so
a `None` name never resolves), and `call` is `mcp_client.call_tool` on the
resolved client handle, returning `str(result)` on success and the raised
exception message on failure. -/
structure ToolEnv (α : Type) where
  parse : String → Except String α
  resolve : String → Option Nat
  call : Nat → Option String → α → Except String String

/-- `self.tool_name_client_map.get(tool_name)` where `tool_name` may be
`None`: string-keyed dict lookup, so a `None` key is never present. -/
def resolveName (env : ToolEnv α) : Option String → Option Nat
  | none => none
  | some n => env.resolve n

/-- How an optional name renders inside a Python f-string: `None` prints as
the four characters None. -/
def nameStr : Option String → String
  | none => "None"
  | some s => s

/-- Outcome of one `_call_tools` run: the final state of the in-place
mutated `messages` list, and the message of the exception escaping the
function, when one was raised. -/
structure CallToolsResult where
  messages : List Message
  exc : Option String
deriving DecidableEq, Repr

/-- The unknown-tool Turn: `Message(role=TOOL,
content=f"Error: Tool \x27\x7btool_name\x7d\x27 not found",
tool_call_id=tool_call["id"], name=tool_name)`. -/
def notFoundTurn (tc : ToolCall) : Message :=
  { role := Role.tool,
    content := some ("Error: Tool \x27" ++ nameStr tc.fname ++ "\x27 not found"),
    tool_call_id := tc.id, name := tc.fname }

/-- The success Turn: `Message(role=TOOL, content=str(result),
tool_call_id=tool_call["id"], name=tool_name)`. -/
def resultTurn (tc : ToolCall) (result : String) : Message :=
  { role := Role.tool, content := some result,
    tool_call_id := tc.id, name := tc.fname }

/-- The contained-failure Turn: `Message(role=TOOL,
content=f"Error executing tool: \x7bstr(e)\x7d", tool_call_id=tool_call["id"],
name=tool_name)`. -/
def execErrorTurn (tc : ToolCall) (e : String) : Message :=
  { role := Role.tool, content := some ("Error executing tool: " ++ e),
    tool_call_id := tc.id, name := tc.fname }

/-- `_call_tools`: for each pending call, parse the arguments with
`json.loads` — which sits outside the try block, so a parse failure raises
out of the whole function — then resolve the name in the client map; an
unresolved name appends the unknown-tool Turn and continues, a resolved
client is invoked inside try/except, appending the success Turn or the
contained-failure Turn, and the loop continues with the remaining calls. -/
def call_tools (env : ToolEnv α) : List ToolCall → List Message → CallToolsResult
  | [], messages => { messages := messages, exc := none }
  | tc :: rest, messages =>
    match env.parse tc.farguments with
    | Except.error e => { messages := messages, exc := some e }
    | Except.ok args =>
      match resolveName env tc.fname with
      | none => call_tools env rest (messages ++ [notFoundTurn tc])
      | some cl =>
        match env.call cl tc.fname args with
        | Except.ok result => call_tools env rest (messages ++ [resultTurn tc result])
        | Except.error e => call_tools env rest (messages ++ [execErrorTurn tc e])

/-- The one tool-role Turn `_call_tools` appends for a pending call whose
arguments parse: unknown-tool error, success result, or contained
executor-failure error. -/
def perCallTurn (env : ToolEnv α) (tc : ToolCall) : Message :=
  match env.parse tc.farguments with
  | Except.error e => execErrorTurn tc e
  | Except.ok args =>
    match resolveName env tc.fname with
    | none => notFoundTurn tc
    | some cl =>
      match env.call cl tc.fname args with
      | Except.ok result => resultTurn tc result
      | Except.error e => execErrorTurn tc e

theorem call_tools_append (env : ToolEnv α) (calls : List ToolCall)
    (msgs : List Message)
    (h : ∀ tc ∈ calls, ∃ a, env.parse tc.farguments = Except.ok a) :
    call_tools env calls msgs =
      { messages := msgs ++ calls.map (perCallTurn env), exc := none } := by
  induction calls generalizing msgs with
  | nil => simp [call_tools]
  | cons tc rest ih =>
    obtain ⟨a, ha⟩ := h tc (List.mem_cons_self tc rest)
    have hrest : ∀ tc2 ∈ rest, ∃ a2, env.parse tc2.farguments = Except.ok a2 :=
      fun tc2 htc => h tc2 (List.mem_cons_of_mem tc htc)
    cases hr : resolveName env tc.fname with
    | none =>
      simp only [call_tools, ha, hr, ih _ hrest]
      simp [perCallTurn, ha, hr]
    | some cl =>
      cases hc : env.call cl tc.fname a with
      | ok r =>
        simp only [call_tools, ha, hr, hc, ih _ hrest]
        simp [perCallTurn, ha, hr, hc]
      | error e =>
        simp only [call_tools, ha, hr, hc, ih _ hrest]
        simp [perCallTurn, ha, hr, hc]

theorem perCallTurn_fields (env : ToolEnv α) (tc : ToolCall) :
    (perCallTurn env tc).role = Role.tool
      ∧ (perCallTurn env tc).tool_call_id = tc.id
      ∧ (perCallTurn env tc).name = tc.fname := by
  cases hp : env.parse tc.farguments with
  | error e => simp [perCallTurn, hp, execErrorTurn]
  | ok a =>
    cases hr : resolveName env tc.fname with
    | none => simp [perCallTurn, hp, hr, notFoundTurn]
    | some cl =>
      cases hc : env.call cl tc.fname a with
      | ok r => simp [perCallTurn, hp, hr, hc, resultTurn]
      | error e => simp [perCallTurn, hp, hr, hc, execErrorTurn]

/-- Claim C1: when invoking a resolved executor fails with any exception,
`_call_tools` appends a tool-role Turn carrying the error message, with the
matching tool_call_id and tool name, instead of propagating the exception,
and continues processing the remaining calls of the batch; and whenever
every pending call of a batch has parseable arguments, no exception escapes
the tool-invocation loop. -/
theorem call_tools_contains_executor_failure {α : Type} (env : ToolEnv α)
    (tc : ToolCall) (rest : List ToolCall) (msgs : List Message)
    (a : α) (cl : Nat) (e : String)
    (hp : env.parse tc.farguments = Except.ok a)
    (hr : resolveName env tc.fname = some cl)
    (hc : env.call cl tc.fname a = Except.error e) :
    call_tools env (tc :: rest) msgs =
        call_tools env rest (msgs ++ [execErrorTurn tc e])
      ∧ (execErrorTurn tc e).role = Role.tool
      ∧ (execErrorTurn tc e).content = some ("Error executing tool: " ++ e)
      ∧ (execErrorTurn tc e).tool_call_id = tc.id
      ∧ (execErrorTurn tc e).name = tc.fname
      ∧ (∀ calls, (∀ tc2 ∈ calls, ∃ a2, env.parse tc2.farguments = Except.ok a2) →
          (call_tools env calls msgs).exc = none) := by
  refine ⟨?_, rfl, rfl, rfl, rfl, ?_⟩
  · simp [call_tools, hp, hr, hc]
  · intro calls h
    rw [call_tools_append env calls msgs h]

/-- A concrete tool environment in which the arguments string
`\x7b"id": 42\x7d` parses, the tool delete_user is registered, and every
invocation of it raises. -/
def envFail : ToolEnv Unit :=
  { parse := fun s =>
      if s = "\x7b\"id\": 42\x7d" then Except.ok ()
      else Except.error "Expecting value: line 1 column 1 (char 0)",
    resolve := fun n => if n = "delete_user" then some 0 else none,
    call := fun _ _ _ => Except.error "not found" }

/-- The pending call `delete_user(\x7b"id": 42\x7d)` with id call_1. -/
def tcDelete : ToolCall :=
  { id := some "call_1", type := some "function", fname := some "delete_user",
    farguments := "\x7b\"id\": 42\x7d" }

/-- A pending call naming a tool absent from the client map. -/
def tcUnknown : ToolCall :=
  { id := some "call_2", type := some "function", fname := some "mystery",
    farguments := "\x7b\"id\": 42\x7d" }

theorem call_tools_contains_executor_failure_witness :
    call_tools envFail [tcDelete] [] =
      { messages := [execErrorTurn tcDelete "not found"], exc := none } := by
  have h := call_tools_contains_executor_failure envFail tcDelete [] [] () 0
    "not found" rfl rfl rfl
  rw [h.1]
  rfl

/-- Claim C4: for a batch of K pending calls all of whose arguments strings
parse, `_call_tools` appends exactly K tool-role Turns to the history, one
per call, in the order the calls were issued, and raises nothing. -/
theorem call_tools_appends_one_turn_per_call {α : Type} (env : ToolEnv α)
    (calls : List ToolCall) (msgs : List Message)
    (h : ∀ tc ∈ calls, ∃ a, env.parse tc.farguments = Except.ok a) :
    (call_tools env calls msgs).messages = msgs ++ calls.map (perCallTurn env)
      ∧ ((call_tools env calls msgs).messages).length = msgs.length + calls.length
      ∧ (∀ tc, (perCallTurn env tc).role = Role.tool
          ∧ (perCallTurn env tc).tool_call_id = tc.id
          ∧ (perCallTurn env tc).name = tc.fname)
      ∧ (call_tools env calls msgs).exc = none := by
  rw [call_tools_append env calls msgs h]
  exact ⟨rfl, by simp, fun tc => perCallTurn_fields env tc, rfl⟩

theorem call_tools_appends_one_turn_per_call_witness :
    (call_tools envFail [tcDelete, tcUnknown] []).messages
        = [execErrorTurn tcDelete "not found", notFoundTurn tcUnknown]
      ∧ (call_tools envFail [tcDelete, tcUnknown] []).exc = none := by
  have h := call_tools_appends_one_turn_per_call envFail [tcDelete, tcUnknown] []
    (by
      intro tc htc
      rcases List.mem_cons.mp htc with h1 | h2
      · subst h1; exact ⟨(), rfl⟩
      · rcases List.mem_cons.mp h2 with h1 | h1
        · subst h1; exact ⟨(), rfl⟩
        · exact absurd h1 (List.not_mem_nil tc))
  exact ⟨by rw [h.1]; rfl, h.2.2.2⟩

/-- Claim C2 (code-bug evidence): `json.loads` runs outside the try block of
`_call_tools`, so a pending call whose arguments string is not valid JSON
raises the decode error out of the invoker — the exception escapes to the
caller and no tool-role error Turn is appended, contradicting the stated
containment of malformed arguments. -/
theorem call_tools_parse_error_escapes :
    (call_tools envFail
        [{ id := some "call_9", type := some "function",
           fname := some "delete_user", farguments := "not json" }] []).exc
        = some "Expecting value: line 1 column 1 (char 0)"
      ∧ (call_tools envFail
          [{ id := some "call_9", type := some "function",
             fname := some "delete_user", farguments := "not json" }] []).messages
        = [] := by
  exact ⟨rfl, rfl⟩

/-- A tool environment in which the empty-object arguments string parses,
the tool search is registered, and invocation succeeds. -/
def envSearch : ToolEnv Unit :=
  { parse := fun s =>
      if s = "\x7b\x7d" then Except.ok ()
      else Except.error "Expecting value: line 1 column 1 (char 0)",
    resolve := fun n => if n = "search" then some 0 else none,
    call := fun _ _ _ => Except.ok "search results" }

/-- A fragment stream for one tool call that never supplies an id: only the
name search and the arguments chunk arrive. -/
def fragNoId : ToolCallDelta :=
  { index := 0, type := some "function",
    function := some { name := some "search", arguments := some "\x7b\x7d" } }

/-- Counterexample to claim C10: the assembled call whose fragment stream
never supplied an id is emitted with `id = none`, and because it carries a
registered name, `_call_tools` invokes the executor normally and appends a
success Turn (with a null tool_call_id) — it is not treated as an
unidentifiable call and failed. -/
theorem idless_call_invoked_normally_cex :
    collect_tool_calls [fragNoId]
        = [{ id := none, type := some "function", fname := some "search",
             farguments := "\x7b\x7d" }]
      ∧ call_tools envSearch (collect_tool_calls [fragNoId]) []
        = { messages :=
              [{ role := Role.tool, content := some "search results",
                 tool_call_id := none, name := some "search" }],
            exc := none } := by
  exact ⟨rfl, rfl⟩

/-- Claim C10 (amended): a streamed tool call that never received an id is
still emitted with id absent, but downstream invocation resolves by name
alone and does not special-case the missing id: when the name is also
absent the call is contained as an unknown-tool error Turn (rendered
Error: Tool \x27None\x27 not found, with a null tool_call_id), while a call
whose name resolves is invoked normally, its result Turn carrying a null
tool_call_id. -/
theorem idless_resolution_by_name {α : Type} (env : ToolEnv α)
    (tc : ToolCall) (rest : List ToolCall) (msgs : List Message) (a : α)
    (hp : env.parse tc.farguments = Except.ok a) (hid : tc.id = none) :
    (tc.fname = none →
        call_tools env (tc :: rest) msgs =
          call_tools env rest (msgs ++
            [{ role := Role.tool, content := some "Error: Tool \x27None\x27 not found",
               tool_call_id := none, name := none }]))
      ∧ (∀ n cl r, tc.fname = some n → env.resolve n = some cl →
          env.call cl (some n) a = Except.ok r →
          call_tools env (tc :: rest) msgs =
            call_tools env rest (msgs ++
              [{ role := Role.tool, content := some r,
                 tool_call_id := none, name := some n }])) := by
  constructor
  · intro hn
    have h1 : notFoundTurn tc =
        { role := Role.tool, content := some "Error: Tool \x27None\x27 not found",
          tool_call_id := none, name := none } := by
      simp only [notFoundTurn, hn, hid, nameStr]
      rfl
    simp [call_tools, hp, hn, resolveName, h1]
  · intro n cl r hn hr hc
    have h1 : resultTurn tc r =
        { role := Role.tool, content := some r,
          tool_call_id := none, name := some n } := by
      simp only [resultTurn, hn, hid]
    simp [call_tools, hp, hn, resolveName, hr, hc, h1]

theorem idless_resolution_by_name_witness :
    call_tools envSearch
        [{ id := none, type := some "function", fname := none,
           farguments := "\x7b\x7d" }] [] =
      { messages :=
          [{ role := Role.tool,
             content := some "Error: Tool \x27None\x27 not found",
             tool_call_id := none, name := none }],
        exc := none } := by
  rw [(idless_resolution_by_name envSearch
      { id := none, type := some "function", fname := none, farguments := "\x7b\x7d" }
      [] [] () rfl rfl).1 rfl]
  rfl

/-! ## Blocking orchestration loop (`DialClient.response`) -/

/-- One gateway reply as read off `response.choices[0].message`: optional
content and the tool-call list (`None` and the empty list are both falsy in
the two `if ... tool_calls:` guards, so they are identified here). -/
structure GwReply where
  content : Option String
  tool_calls : List ToolCall
deriving Repr

/-- Outcome of one `DialClient.response` run: the returned final assistant
message, an exception that propagated out, or — since the Python recursion
has no depth limit — a recursion still running after the given number of
rounds (modelled by fuel exhaustion). -/
inductive RunOutcome where
  | answer (m : Message)
  | exc (e : String)
  | spin
deriving DecidableEq, Repr

/-- Whether the run is still recursing after the allotted rounds. -/
def isSpin : RunOutcome → Bool
  | RunOutcome.spin => true
  | _ => false

/-- `DialClient.response`: call the gateway, build the assistant message
(attaching the tool calls only when the gateway returned a truthy list), and
either return it (no tool calls), or append it, run `_call_tools` — whose
escaping exception also escapes here — and recurse on the extended history.
The fuel argument counts rounds the Python call stack would perform; the
source imposes no bound, so exhausted fuel means the recursion is still
running. -/
def DialClient.response (env : ToolEnv α) (gw : List Message → GwReply) :
    Nat → List Message → RunOutcome × List Message
  | 0, msgs => (RunOutcome.spin, msgs)
  | fuel+1, msgs =>
    let r := gw msgs
    let aiMsg : Message :=
      { role := Role.assistant, content := r.content,
        tool_calls := if r.tool_calls.isEmpty then none else some r.tool_calls }
    if r.tool_calls.isEmpty then (RunOutcome.answer aiMsg, msgs)
    else
      let cr := call_tools env r.tool_calls (msgs ++ [aiMsg])
      match cr.exc with
      | some e => (RunOutcome.exc e, cr.messages)
      | none => DialClient.response env gw fuel cr.messages

/-- A registered tool tick whose invocation always succeeds. -/
def envLoop : ToolEnv Unit :=
  { parse := fun s =>
      if s = "\x7b\x7d" then Except.ok ()
      else Except.error "Expecting value: line 1 column 1 (char 0)",
    resolve := fun n => if n = "tick" then some 0 else none,
    call := fun _ _ _ => Except.ok "ok" }

/-- The pending call `tick(\x7b\x7d)` the misbehaving model issues on every
round. -/
def tcLoop : ToolCall :=
  { id := some "call_t", type := some "function", fname := some "tick",
    farguments := "\x7b\x7d" }

/-- A gateway modelling a misbehaving model that requests the tick tool
call on every round and never produces a final answer. -/
def gwLoop : List Message → GwReply :=
  fun _ => { content := none, tool_calls := [tcLoop] }

/-- Counterexample to claim C5: with a model that perpetually requests tool
calls, after 20 rounds `DialClient.response` has neither returned an answer
nor surfaced any failure — no maximum round count is enforced and the loop
does not terminate on this input. -/
theorem response_no_round_limit_cex :
    isSpin (DialClient.response envLoop gwLoop 20
      [{ role := Role.user, content := some "hi" }]).1 = true := by
  rfl

/-- Claim C5 (amended): the orchestration loop enforces no maximum round
count: for every gateway that always requests a tool-call batch with
parseable arguments, and for every round budget, the loop is still
recursing — a perpetually tool-calling model is never stopped and no
bound-exceeded failure is ever surfaced. -/
theorem response_unbounded_rounds {α : Type} (env : ToolEnv α)
    (gw : List Message → GwReply)
    (hro : ∀ h, (gw h).tool_calls.isEmpty = false)
    (hp : ∀ h tc, tc ∈ (gw h).tool_calls → ∃ a, env.parse tc.farguments = Except.ok a) :
    ∀ (fuel : Nat) (msgs : List Message),
      (DialClient.response env gw fuel msgs).1 = RunOutcome.spin := by
  intro fuel
  induction fuel with
  | zero => intro msgs; rfl
  | succ n ih =>
    intro msgs
    have hr := hro msgs
    have hexc := call_tools_append env (gw msgs).tool_calls
      (msgs ++ [{ role := Role.assistant, content := (gw msgs).content,
                  tool_calls := some (gw msgs).tool_calls }])
      (fun tc htc => hp msgs tc htc)
    simp only [DialClient.response, hr, Bool.false_eq_true, if_false, hexc]
    exact ih _

theorem response_unbounded_rounds_witness :
    (DialClient.response envLoop gwLoop 3 []).1 = RunOutcome.spin := by
  exact response_unbounded_rounds envLoop gwLoop (fun _ => rfl)
    (fun h tc htc => by
      rcases List.mem_cons.mp htc with h1 | h1
      · subst h1; exact ⟨(), rfl⟩
      · exact absurd h1 (List.not_mem_nil tc)) 3 []

/-! ## Streaming flavor (`DialClient.stream_response`,
`ConversationManager._stream_chat`) -/

/-- One lowercase hex digit, as json.dumps prints them. -/
def hexDigit (n : Nat) : Char :=
  if n < 10 then Char.ofNat (48 + n) else Char.ofNat (87 + n)

/-- Four hex digits of a \u escape. -/
def hex4 (n : Nat) : String :=
  String.mk [hexDigit (n / 4096 % 16), hexDigit (n / 256 % 16),
    hexDigit (n / 16 % 16), hexDigit (n % 16)]

/-- How json.dumps (default settings, ensure_ascii) renders one character
inside a JSON string: the two-character escapes for quote, backslash and the
common control characters, \u escapes (with surrogate pairs) for the other
control and all non-ASCII characters, and the character itself otherwise. -/
def jsonEscapeChar (c : Char) : String :=
  if c = Char.ofNat 34 then "\\\""
  else if c = Char.ofNat 92 then "\\\\"
  else if c = Char.ofNat 10 then "\\n"
  else if c = Char.ofNat 13 then "\\r"
  else if c = Char.ofNat 9 then "\\t"
  else if c = Char.ofNat 8 then "\\b"
  else if c = Char.ofNat 12 then "\\f"
  else if c.toNat < 32 ∨ c.toNat > 126 then
    if c.toNat ≤ 65535 then "\\u" ++ hex4 c.toNat
    else "\\u" ++ hex4 (55296 + (c.toNat - 65536) / 1024)
      ++ "\\u" ++ hex4 (56320 + (c.toNat - 65536) % 1024)
  else String.singleton c

/-- json.dumps escaping of a whole string body. -/
def jsonEscape (s : String) : String :=
  concatChunks (s.data.map jsonEscapeChar)

/-- A JSON string literal as json.dumps prints it. -/
def jsonString (s : String) : String :=
  "\"" ++ jsonEscape s ++ "\""

/-- The SSE content-delta event of `stream_response`:
`f"data: \x7bjson.dumps(chunk_data)\x7d\n\n"` for
`chunk_data = \x7b"choices": [\x7b"delta": \x7b"content": c\x7d, "index": 0,
"finish_reason": None\x7d]\x7d`. -/
def sseContentEvent (c : String) : String :=
  "data: \x7b\"choices\": [\x7b\"delta\": \x7b\"content\": " ++ jsonString c
    ++ "\x7d, \"index\": 0, \"finish_reason\": null\x7d]\x7d\n\n"

/-- The SSE finish event:
`\x7b"choices": [\x7b"delta": \x7b\x7d, "index": 0, "finish_reason": "stop"\x7d]\x7d`. -/
def finishEvent : String :=
  "data: \x7b\"choices\": [\x7b\"delta\": \x7b\x7d, \"index\": 0, \"finish_reason\": \"stop\"\x7d]\x7d\n\n"

/-- The end-of-stream sentinel. -/
def doneEvent : String := "data: [DONE]\n\n"

/-- The leading conversation-identifier event of `_stream_chat`:
`f"data: \x7bjson.dumps(\x7b@conversation_id@: conversation_id\x7d)\x7d\n\n"`. -/
def cidEvent (conversation_id : String) : String :=
  "data: \x7b\"conversation_id\": " ++ jsonString conversation_id ++ "\x7d\n\n"

/-- One streamed gateway chunk as read off `chunk.choices[0].delta`:
optional content and the tool-call fragment list (`None` identified with the
empty list, both being falsy in the `if delta.tool_calls:` guard). -/
structure StreamChunk where
  content : Option String := none
  tool_calls : List ToolCallDelta := []
deriving Repr

/-- One iteration of the `async for chunk in stream` loop: a truthy content
delta is yielded as an SSE event and concatenated onto the buffer, and a
truthy tool-call fragment list is extended onto the collected deltas. State
is (content buffer, yielded events, collected tool deltas). -/
def streamFold (st : String × List String × List ToolCallDelta) (ch : StreamChunk) :
    String × List String × List ToolCallDelta :=
  let st :=
    if truthy ch.content then
      (st.1 ++ ch.content.getD "", st.2.1 ++ [sseContentEvent (ch.content.getD "")], st.2.2)
    else st
  if ch.tool_calls.isEmpty then st else (st.1, st.2.1, st.2.2 ++ ch.tool_calls)

/-- Outcome of one `stream_response` run: the SSE strings yielded to the
caller, the final state of the mutated messages list, the message of an
exception that propagated through the generator, and whether the recursion
was still running when the round budget ran out. -/
structure StreamResult where
  chunks : List String
  messages : List Message
  exc : Option String
  spun : Bool
deriving Repr

/-- `DialClient.stream_response`: drain the gateway stream while yielding
content deltas and collecting tool-call fragments; if any fragments were
seen, assemble them, append the assistant message (buffered content plus
assembled calls), run `_call_tools` — an escaping exception also escapes the
generator — and recurse, concatenating the recursive yields; otherwise
append the assistant message from the buffer alone and yield the finish
event and the [DONE] sentinel. Fuel as in `DialClient.response`. -/
def stream_response (env : ToolEnv α) (gws : List Message → List StreamChunk) :
    Nat → List Message → StreamResult
  | 0, msgs => { chunks := [], messages := msgs, exc := none, spun := true }
  | fuel+1, msgs =>
    let st := (gws msgs).foldl streamFold ("", [], [])
    if st.2.2.isEmpty then
      { chunks := st.2.1 ++ [finishEvent, doneEvent],
        messages := msgs ++ [{ role := Role.assistant, content := some st.1 }],
        exc := none, spun := false }
    else
      let tcs := collect_tool_calls st.2.2
      let aiMsg : Message :=
        { role := Role.assistant, content := some st.1, tool_calls := some tcs }
      let cr := call_tools env tcs (msgs ++ [aiMsg])
      match cr.exc with
      | some e => { chunks := st.2.1, messages := cr.messages, exc := some e, spun := false }
      | none =>
        let r := stream_response env gws fuel cr.messages
        { r with chunks := st.2.1 ++ r.chunks }

/-- `ConversationManager._stream_chat`: yield the conversation-identifier
event first, then every chunk of `DialClient.stream_response` (persistence
of the final history to the store is outside this model). -/
def stream_chat (env : ToolEnv α) (gws : List Message → List StreamChunk)
    (fuel : Nat) (conversation_id : String) (messages : List Message) : StreamResult :=
  let r := stream_response env gws fuel messages
  { r with chunks := cidEvent conversation_id :: r.chunks }

theorem streamFold_content_only :
    ∀ (deltas : List String), (∀ d ∈ deltas, d ≠ "") →
      ∀ (buf : String) (evs : List String) (tds : List ToolCallDelta),
        (deltas.map (fun d => ({ content := some d } : StreamChunk))).foldl
            streamFold (buf, evs, tds)
          = (buf ++ concatChunks deltas, evs ++ deltas.map sseContentEvent, tds) := by
  intro deltas
  induction deltas with
  | nil => intro _ buf evs tds; simp [concatChunks]
  | cons d rest ih =>
    intro h buf evs tds
    have hd : d ≠ "" := h d (List.mem_cons_self d rest)
    have hrest : ∀ d2 ∈ rest, d2 ≠ "" := fun d2 hm => h d2 (List.mem_cons_of_mem d hm)
    simp only [List.map_cons, List.foldl_cons]
    rw [show streamFold (buf, evs, tds) { content := some d }
        = (buf ++ d, evs ++ [sseContentEvent d], tds) from by
      simp [streamFold, truthy, hd]]
    rw [ih hrest]
    simp [concatChunks, String.append_assoc]

/-- Claim C8: in a streaming run whose gateway emits only content deltas and
no tool-call fragments, the caller receives the leading
conversation-identifier event, then one content-delta event per delta in
arrival order, then the finish event, then the sentinel
data: [DONE]\n\n; and the assistant Turn appended to the history carries the
concatenation of all deltas in order as its content. -/
theorem stream_chat_content_only_events {α : Type} (env : ToolEnv α)
    (gws : List Message → List StreamChunk) (fuel : Nat)
    (conversation_id : String) (msgs : List Message) (deltas : List String)
    (hg : gws msgs = deltas.map (fun d => ({ content := some d } : StreamChunk)))
    (hne : ∀ d ∈ deltas, d ≠ "") :
    stream_chat env gws (fuel + 1) conversation_id msgs =
      { chunks := cidEvent conversation_id ::
            (deltas.map sseContentEvent ++ [finishEvent, doneEvent]),
        messages := msgs ++
          [{ role := Role.assistant, content := some (concatChunks deltas) }],
        exc := none, spun := false } := by
  unfold stream_chat
  simp only [stream_response, hg, streamFold_content_only deltas hne "" [] []]
  simp [String.empty_append]

/-- The user turn opening the witness conversation. -/
def userHi : Message := { role := Role.user, content := some "hi" }

/-- A gateway stream of three content deltas and no tool-call fragments. -/
def gwsHello : List Message → List StreamChunk :=
  fun _ => [{ content := some "Hel" }, { content := some "lo, " },
    { content := some "world" }]

theorem stream_chat_content_only_events_witness :
    stream_chat envSearch gwsHello 1 "c1" [userHi] =
      { chunks := [cidEvent "c1", sseContentEvent "Hel", sseContentEvent "lo, ",
          sseContentEvent "world", finishEvent, doneEvent],
        messages := [userHi, { role := Role.assistant, content := some "Hello, world" }],
        exc := none, spun := false } := by
  rw [stream_chat_content_only_events envSearch gwsHello 0 "c1" [userHi]
    ["Hel", "lo, ", "world"] rfl (by decide)]
  rfl

/-! ## Conversation manager entry point (`ConversationManager.chat`) -/

/-- `ConversationManager.chat`: the body is a TODO comment followed by
`raise NotImplementedError()`; none of the documented steps (load the
history, prepend the system prompt on a new conversation, append the user
message, delegate to the streaming or blocking handler) is implemented. -/
def ConversationManager.chat (user_message : Message) (conversation_id : String)
    (stream : Bool) : Except String Unit :=
  Except.error "NotImplementedError"

/-- Claim C3: for every user message, conversation id and stream flag, the
public chat entry point raises NotImplementedError unconditionally. -/
theorem chat_always_raises (user_message : Message) (conversation_id : String)
    (stream : Bool) :
    ConversationManager.chat user_message conversation_id stream
      = Except.error "NotImplementedError" := rfl

end UmsAgent
